import Mathlib

/-!
Verification of the natural-language specification of `update.py`, the
Kodi add-on repository assembly script, against a shallow embedding of its
code.  Pure fragments of the Python source are translated into Lean
functions; the filesystem and the per-source pipeline state are made
explicit.  Machine-level details that no claim depends on (actual byte
contents of archives, hash values, clock times) are abstracted, while the
control flow, string manipulation and error propagation of the source are
kept exact.
-/

/-- Python exception values that the script can raise, by class.
`runtimeError` carries the message built at the raise site;
`stopIteration` is what `next` with no default raises;
`keyError` is raised by `ZipFile.extract` for a non-member name;
`fileNotFound` by `os.stat` on a missing path. -/
inductive PyError where
  | typeError
  | runtimeError (msg : String)
  | stopIteration
  | keyError (name : String)
  | fileNotFound (path : String)
  | badZipFile
  | parseError
deriving DecidableEq, Repr

/-- The root element of a parsed descriptor document: only the `id` and
`version` attributes are ever read by the script (update.py lines 84, 88). -/
structure XmlDoc where
  id : Option String
  version : Option String
deriving DecidableEq, Repr

/-- One member of a ZIP archive: its path inside the archive and its
content, modelled as the XML document it parses to (only `addon.xml`
members are ever parsed; for other members the content is irrelevant). -/
structure ZipMember where
  name : String
  doc : XmlDoc
deriving DecidableEq, Repr

/-- Content of a file on disk, at the granularity the script observes. -/
inductive File where
  | xmlDoc (d : XmlDoc)
  | zipArc (ms : List ZipMember)
  | plain
deriving DecidableEq, Repr

/-- A file on disk: path, content, and an inode number standing for the
`os.stat` record (two paths report equal stats iff they are the same
underlying file). -/
structure FSEntry where
  path : String
  file : File
  ino : Nat
deriving DecidableEq, Repr

/-- The filesystem state: regular files, existing directories, and a
fresh-inode counter used when a file is created or rewritten. -/
structure FS where
  files : List FSEntry
  dirs : List String
  nextIno : Nat
deriving DecidableEq, Repr

def FS.lookup (fs : FS) (p : String) : Option FSEntry :=
  fs.files.find? (fun e => e.path == p)

def FS.isFile (fs : FS) (p : String) : Bool :=
  (fs.lookup p).isSome

/-- Model of `os.stat`: the inode of the file at `p`, or
`FileNotFoundError` when nothing exists there. -/
def FS.statOf (fs : FS) (p : String) : Except PyError Nat :=
  match fs.lookup p with
  | some e => .ok e.ino
  | none => .error (.fileNotFound p)

/-- Create or rewrite the file at `p` (open for writing / copy target):
the entry gets a fresh inode. -/
def FS.write (fs : FS) (p : String) (f : File) : FS :=
  ⟨⟨p, f, fs.nextIno⟩ :: fs.files.filter (fun e => e.path != p), fs.dirs, fs.nextIno + 1⟩

/-- Model of `os.remove`. -/
def FS.remove (fs : FS) (p : String) : FS :=
  ⟨fs.files.filter (fun e => e.path != p), fs.dirs, fs.nextIno⟩

/-- Model of `os.rename`: the file keeps its content and inode, only its
path changes. -/
def FS.rename (fs : FS) (p q : String) : FS :=
  match fs.lookup p with
  | some e =>
      ⟨⟨q, e.file, e.ino⟩ :: fs.files.filter (fun x => x.path != p && x.path != q),
        fs.dirs, fs.nextIno⟩
  | none => fs

/-- Model of `createFolder` (update.py lines 72-74): `os.mkdir` only when
the directory does not yet exist. -/
def FS.createFolder (fs : FS) (p : String) : FS :=
  if fs.dirs.contains p then fs else ⟨fs.files, p :: fs.dirs, fs.nextIno⟩

/-- Model of `shutil.copyfile`: the destination is created or rewritten
with the source's content (fresh inode: it is a distinct file). -/
def FS.copyfile (fs : FS) (src dst : String) : FS :=
  match fs.lookup src with
  | some e => fs.write dst e.file
  | none => fs

/-! ### Constants of the script (update.py lines 62-69, 133-135) -/

def addonXmlName : String := "addon.xml"

def changelogBase : String := "changelog"

def textFileType : String := "txt"

def zipFileType : String := "zip"

def changelogFileName : String := changelogBase ++ "." ++ textFileType

/-- The fixed auxiliary file whitelist (update.py line 135). -/
def addonInfoFileNames : List String :=
  [addonXmlName, "icon.png", "fanart.jpg", changelogFileName]

/-- Model of `os.path.join` for the relative second arguments the script
uses (POSIX). -/
def pathJoin (a b : String) : String := a ++ "/" ++ b

/-- Model of `getNameVersionFileName` (update.py lines 97-98). -/
def getNameVersionFileName (path name version fileType : String) : String :=
  pathJoin path (name ++ "-" ++ version ++ "." ++ fileType)

/-- Step function for `os.path.basename`: fold over the characters,
resetting the accumulator at each `/`. -/
def baseStep (acc : List Char) (c : Char) : List Char :=
  if c = '/' then [] else acc ++ [c]

/-- Model of `os.path.basename` (POSIX): the part after the last slash. -/
def baseName (s : String) : String :=
  ⟨s.data.foldl baseStep []⟩

/-! ### MetadataReader: `getAddonInfo` (update.py lines 81-94) -/

/-- A character allowed in an add-on identifier: the regex class
`[a-z0-9._-]` of `re.search("[^a-z0-9._-]", addonId)` (line 86). -/
def validChar (c : Char) : Bool :=
  ('a' ≤ c && c ≤ 'z') || ('0' ≤ c && c ≤ '9') || c == '.' || c == '_' || c == '-'

/-- The group captured by `re.match(r"(\d+\.\d+\.\d+).*", addonVersion)`
(line 91): the greedy three-component numeric prefix, or `none` when the
string does not begin with `\d+\.\d+\.\d+`. -/
def versionCore (v : String) : Option String :=
  let l := v.data
  let d1 := l.takeWhile Char.isDigit
  let r1 := l.dropWhile Char.isDigit
  if d1.isEmpty then none else
  match r1 with
  | c1 :: r2 =>
    if c1 = '.' then
      let d2 := r2.takeWhile Char.isDigit
      let r3 := r2.dropWhile Char.isDigit
      if d2.isEmpty then none else
      match r3 with
      | c2 :: r4 =>
        if c2 = '.' then
          let d3 := r4.takeWhile Char.isDigit
          if d3.isEmpty then none else some ⟨d1 ++ '.' :: d2 ++ '.' :: d3⟩
        else none
      | [] => none
    else none
  | [] => none

/-- Model of `getAddonInfo` (update.py lines 81-94) applied to the parsed
root element.  Note the error classes: when the `id` attribute is absent,
`"Invalid addon ID: " + None` raises `TypeError` before the intended
`RuntimeError` is constructed; likewise for an absent `version` attribute
inside the `except` handler.  A present but invalid attribute raises
`RuntimeError`. -/
def getAddonInfo (doc : XmlDoc) : Except PyError (String × String) :=
  match doc.id with
  | none => .error .typeError
  | some addonId =>
    if addonId.data.any (fun c => !(validChar c)) then
      .error (.runtimeError ("Invalid addon ID: " ++ addonId))
    else
      match doc.version with
      | none => .error .typeError
      | some ver =>
        match versionCore ver with
        | some core => .ok (addonId, core)
        | none => .error (.runtimeError ("Invalid addon version: " ++ ver))

/-! ### The descriptor-member pattern (update.py line 202)

`re.compile(".*/" + AddonXml + '$', re.I)` compiles to `.*/addon.xml$`
with case-insensitive matching, used with `re.match` (anchored at the
start).  Note that the `.` of `addon.xml` is an unescaped regex dot
(matches any character except a newline), that a `/` is required before
`addon`, and that `$` also matches just before a single trailing
newline. -/

def lc (c : Char) : Char := c.toLower

/-- Does the list match `/addon.xml$` (case-insensitive, `.` a wildcard,
`$` allowing one trailing newline)? -/
def descTail (l : List Char) : Bool :=
  match l with
  | s :: a :: d1 :: d2 :: o :: n :: c :: x :: m :: e :: rest =>
    s == '/' && lc a == 'a' && lc d1 == 'd' && lc d2 == 'd' && lc o == 'o' &&
    lc n == 'n' && c != '\n' && lc x == 'x' && lc m == 'm' && lc e == 'l' &&
    (rest.isEmpty || rest == ['\n'])
  | _ => false

/-- Does the list match `.*/addon.xml$` from the start: try `descTail` at
every position reachable by `.*` (which cannot cross a newline)? -/
def descScan : List Char → Bool
  | [] => false
  | c :: t => descTail (c :: t) || (c != '\n' && descScan t)

/-- Model of `addonXmlRegExp.match filePath` (update.py lines 202-203). -/
def descMemberMatch (s : String) : Bool := descScan s.data

/-- Model of `next(filePath for filePath in addonZip.namelist() if
addonXmlRegExp.match(filePath))` (line 203): the first member whose path
matches. -/
def findDescriptorMember (ms : List ZipMember) : Option ZipMember :=
  ms.find? (fun m => descMemberMatch m.name)

/-- The spec-side predicate of claim C5: the path ends with the canonical
descriptor file name, compared case-insensitively. -/
def endsWithCI (s suffix : String) : Bool :=
  List.isSuffixOf (suffix.data.map lc) (s.data.map lc)

/-- The spec-side identifier pattern of claims C2/C3:
`^[a-z0-9._-]+$`. -/
def specIdMatch (s : String) : Bool :=
  !s.isEmpty && s.data.all validChar

/-! ### The archive branch of `fetch` (update.py lines 199-236) -/

/-- Python's substring test `needle in hay`. -/
def containsSubL (needle : List Char) : List Char → Bool
  | [] => needle.isEmpty
  | c :: t => needle.isPrefixOf (c :: t) || containsSubL needle t

def containsSub (hay needle : String) : Bool := containsSubL needle.data hay.data

/-- Model of `ZipFile.getinfo`: the name-to-info dictionary is built in
member order, a duplicate name overwriting the earlier entry, so lookup
returns the last member with that exact name. -/
def zipGetInfo (ms : List ZipMember) (name : String) : Option ZipMember :=
  ms.reverse.find? (fun m => m.name == name)

/-- Parse the file at a path as an XML document (`ElementTree.parse`). -/
def parseXmlFile (f : File) : Except PyError XmlDoc :=
  match f with
  | .xmlDoc d => .ok d
  | _ => .error .parseError

/-- Model of the auxiliary-file extraction loop (update.py lines 216-220):
for each fixed file name, if the string `{addonId}/{fileName}` occurs as a
substring of ANY member path, call `extract` with that exact name —
which raises `KeyError` when no member has exactly that name. -/
def extractLoop (fs : FS) (dms : List ZipMember) (addonId datadir : String) :
    List String → Except PyError FS
  | [] => .ok fs
  | n :: rest =>
    let zp := addonId ++ "/" ++ n
    if dms.any (fun mm => containsSub mm.name zp) then
      match zipGetInfo dms zp with
      | some mm =>
          extractLoop (fs.write (pathJoin datadir zp) (.xmlDoc mm.doc)) dms addonId datadir rest
      | none => .error (.keyError zp)
    else extractLoop fs dms addonId datadir rest

def extractInfoFiles (fs : FS) (dms : List ZipMember) (addonId datadir : String) :
    Except PyError FS :=
  extractLoop fs dms addonId datadir addonInfoFileNames

/-- Model of the changelog-versioning block (update.py lines 221-228). -/
def changelogStep (fs : FS) (folder ver : String) : FS :=
  let cl := pathJoin folder changelogFileName
  if fs.isFile cl then
    let clv := getNameVersionFileName folder changelogBase ver textFileType
    if fs.isFile clv then fs.remove cl
    else fs.rename cl clv
  else fs

/-- One pipeline result as appended to the shared `result` list
(update.py line 63): exactly one of `xml` / `exception` is set. -/
structure AddonPublisherResult where
  xml : Option XmlDoc
  exception : Option PyError
deriving DecidableEq, Repr

instance exceptDecEq {ε α : Type} [DecidableEq ε] [DecidableEq α] : DecidableEq (Except ε α)
  | .ok a, .ok b =>
      if h : a = b then .isTrue (h ▸ rfl) else .isFalse (fun hh => h (Except.ok.inj hh))
  | .error a, .error b =>
      if h : a = b then .isTrue (h ▸ rfl) else .isFalse (fun hh => h (Except.error.inj hh))
  | .ok _, .error _ => .isFalse Except.noConfusion
  | .error _, .ok _ => .isFalse Except.noConfusion

/-- Outcome of one run of the zip branch of `fetch`: the final filesystem
and optional descriptor on success, or the exception caught at the
pipeline boundary; plus the temporary directories created and the ones
actually deleted during the run. -/
structure FetchOut where
  res : Except PyError (FS × Option XmlDoc)
  tempCreated : List String
  tempRemoved : List String
deriving DecidableEq, Repr

/-- Lines 207-212: compute both stat records (`os.stat` raising
`FileNotFoundError` on a missing path), and copy the source archive over
the destination — creating the identifier directory first — exactly when
the records differ. -/
def copyStage (fs : FS) (ap dest folder : String) : Except PyError FS :=
  match fs.statOf ap with
  | .error e => .error e
  | .ok s =>
    match fs.statOf dest with
    | .error e => .error e
    | .ok d => .ok (if s ≠ d then (fs.createFolder folder).copyfile ap dest else fs)

/-- Lines 215-234: open the destination archive (`BadZipFile` when the
path does not hold a ZIP archive), extract the auxiliary files, version
the changelog, write the checksum sidecar, and finally — when an
`addon.xml` file now exists in the identifier directory — parse it as the
pipeline's result document and remove it. -/
def publishStage (fs1 : FS) (dest folder addonId addonVersion dd : String) :
    Except PyError (FS × Option XmlDoc) :=
  match fs1.lookup dest with
  | some ⟨_, .zipArc dms, _⟩ =>
    match extractInfoFiles fs1 dms addonId dd with
    | .error e => .error e
    | .ok fs2 =>
      let fs3 := changelogStep fs2 folder addonVersion
      let fs4 := fs3.write (dest ++ "." ++ "md5") .plain
      let axp := pathJoin folder addonXmlName
      match fs4.lookup axp with
      | some e =>
        match parseXmlFile e.file with
        | .ok d2 => .ok (fs4.remove axp, some d2)
        | .error err => .error err
      | none => .ok (fs4, none)
  | _ => .error .badZipFile

/-- Model of the archive branch of `fetch` (update.py lines 199-236), for
a source `addonPath` and data directory `datadir`.  `tmp` is the fresh
directory name returned by `tempfile.mkdtemp` at line 200.  Faithful
points to note:
* line 203 raises `StopIteration` (and line 206's `rmtree` never runs)
  when no member matches the descriptor pattern;
* line 205's `getAddonInfo` failure likewise skips the `rmtree`;
* line 210 calls `os.stat` on the destination path before anything has
  created it, so a missing destination raises `FileNotFoundError` (see
  `copyStage`);
* the catalog document (line 233) is re-parsed from the extracted
  `{addonId}/addon.xml` file, then removed (see `publishStage`). -/
def fetchZip (fs : FS) (addonPath datadir tmp : String) : FetchOut :=
  match fs.lookup addonPath with
  | some ⟨_, .zipArc ms, _⟩ =>
    match findDescriptorMember ms with
    | none => ⟨.error .stopIteration, [tmp], []⟩
    | some m =>
      match getAddonInfo m.doc with
      | .error e => ⟨.error e, [tmp], []⟩
      | .ok (addonId, addonVersion) =>
        let folder := pathJoin datadir addonId
        let dest := pathJoin folder (baseName addonPath)
        match copyStage fs addonPath dest folder with
        | .error e => ⟨.error e, [tmp], [tmp]⟩
        | .ok fs1 =>
          match publishStage fs1 dest folder addonId addonVersion datadir with
          | .error e => ⟨.error e, [tmp], [tmp]⟩
          | .ok (fs', r) => ⟨.ok (fs', r), [tmp], [tmp]⟩
  | _ => ⟨.ok (fs, none), [], []⟩

/-! ### The directory branch of `fetch` (update.py lines 149-197)

The source directory is given as its listing `srcFiles`: relative file
paths paired with the XML document each file parses to (only `addon.xml`
is ever parsed).  The platform-specific texture-packing step
(lines 156-173) is an external collaborator explicitly out of the spec's
scope and mutates only the source tree, so it is omitted.  Member names
produced by `os.walk`/`zipFile.write` are normalised relative paths
`{addonId}/{relativePath}` (ZipInfo.from_file applies `normpath`). -/

/-- Outcome of the directory branch: the updated filesystem, the path of
the `{identifier}-{version}.zip` archive that the branch hands to the
archive branch, and whether the archive was built on this run (update.py
lines 179-193). -/
def fetchDir (fs : FS) (addonPath datadir : String)
    (srcFiles : List (String × XmlDoc)) : Except PyError (FS × String × Bool) :=
  match srcFiles.find? (fun p => p.1 == addonXmlName) with
  | none => .error (.fileNotFound (pathJoin addonPath addonXmlName))
  | some (_, doc) =>
    match getAddonInfo doc with
    | .error e => .error e
    | .ok (addonId, addonVersion) =>
      let folder := pathJoin datadir addonId
      let fs1 := fs.createFolder folder
      let zipFilePath := getNameVersionFileName folder addonId addonVersion zipFileType
      if fs1.isFile zipFilePath then .ok (fs1, zipFilePath, false)
      else
        let members : List ZipMember :=
          if addonPath = datadir then
            addonInfoFileNames.filterMap (fun n =>
              (srcFiles.find? (fun p => p.1 == n)).map
                (fun p => ⟨pathJoin addonId n, p.2⟩))
          else
            srcFiles.map (fun p => ⟨pathJoin addonId p.1, p.2⟩)
        .ok (fs1.write zipFilePath (.zipArc members), zipFilePath, true)

/-- The whole pipeline for a local directory source: the directory branch
(lines 149-197) followed by the archive branch (lines 199-236) applied to
the archive it produced. -/
def fetchPipelineDir (fs : FS) (addonPath datadir tmp : String)
    (srcFiles : List (String × XmlDoc)) : FetchOut × Bool × String :=
  match fetchDir fs addonPath datadir srcFiles with
  | .error e => (⟨.error e, [], []⟩, false, "")
  | .ok (fs1, zipFilePath, built) =>
      (fetchZip fs1 zipFilePath datadir tmp, built, zipFilePath)

/-! ### The orchestrator (update.py lines 286-300) -/

/-- Diagnostic line printed for a failed or resultless source
(update.py lines 245-246). -/
def getErrorGettingAddon (addonName : String) : String :=
  "Cannot download add-on \"" ++ addonName ++ "\" and will not be included in the repository."

/-- Model of `addonsXml.append(addonPublisherResult.xml)` (line 298):
`Element.append` raises `TypeError` when handed `None` instead of an
`Element`. -/
def appendToCatalog (cat : List XmlDoc) (x : Option XmlDoc) :
    Except PyError (List XmlDoc) :=
  match x with
  | some d => .ok (cat ++ [d])
  | none => .error .typeError

/-- One iteration of the result-collection loop (update.py lines 291-300)
for one publisher: `next(iter(result))` raises `StopIteration` on an
empty result list (caught: diagnostic only); otherwise, after printing a
diagnostic when the outcome has an exception, the outcome's `xml` field
is appended to the catalog element unconditionally. -/
def processPublisher (acc : List XmlDoc × List String) (name : String)
    (result : List AddonPublisherResult) :
    Except PyError (List XmlDoc × List String) :=
  match result with
  | [] => .ok (acc.1, acc.2 ++ [getErrorGettingAddon name])
  | r :: _ =>
    let diags := if r.exception.isSome then acc.2 ++ [getErrorGettingAddon name] else acc.2
    match appendToCatalog acc.1 r.xml with
    | .ok cat => .ok (cat, diags)
    | .error e => .error e

/-- Model of the fan-in loop of `__main__` (update.py lines 290-300):
fold over the publishers in submission order, building the children of
the `addons` catalog element and the printed diagnostics; an uncaught
exception aborts the run before the catalog is written. -/
def mainLoop (publishers : List (String × List AddonPublisherResult)) :
    Except PyError (List XmlDoc × List String) :=
  publishers.foldlM (fun acc p => processPublisher acc p.1 p.2) ([], [])

/-! ### Remote source reference parsing (update.py lines 137-147)

`re.match("((?:[A-Za-z0-9+.-]+://)?.*?)(?:#([^#]*?))?(?::([^:]*))?$", addonPath)`
with backtracking semantics: the optional scheme is consumed greedily
first, `.*?` grows lazily, at each stop the engine tries `#`-group, then
`:`-group, then `$` (which also matches before one trailing newline). -/

def isSchemeChar (c : Char) : Bool :=
  c.isAlpha || c.isDigit || c == '+' || c == '.' || c == '-'

/-- Length consumed by `(?:[A-Za-z0-9+.-]+://)?` when it matches. -/
def schemeLen (l : List Char) : Nat :=
  let p := l.takeWhile isSchemeChar
  if p.isEmpty then 0
  else if (l.drop p.length).take 3 = [':', '/', '/'] then p.length + 3 else 0

/-- Model of `isUrl` (update.py lines 77-78):
`re.match("[A-Za-z0-9+.-]+://.", path)`. -/
def isUrl (path : String) : Bool :=
  let l := path.data
  schemeLen l ≠ 0 && l.length > schemeLen l &&
    (l.drop (schemeLen l)).headD ' ' != '\n'

/-- Does the remainder match `(?::([^:]*))?$`, returning the captured
group?  `[^:]*` may contain newlines; `$` also matches before a final
newline (covered by the greedy `[^:]*` or the bare-newline tail). -/
def tailG3 (t : List Char) : Option (Option (List Char)) :=
  match t with
  | [] => some none
  | ['\n'] => some none
  | ':' :: r => if r.all (fun c => c != ':') then some (some r) else none
  | _ => none

/-- After a `#`: split off the lazily-minimal `[^#]*?` group `X` such
that the rest matches `(?::([^:]*))?$`. -/
def hashScan : List Char → Option (List Char × Option (List Char))
  | [] =>
    match tailG3 [] with
    | some g3 => some ([], g3)
    | none => none
  | c :: t =>
    match tailG3 (c :: t) with
    | some g3 => some ([], g3)
    | none =>
      if c == '#' then none
      else (hashScan t).map (fun r => (c :: r.1, r.2))

/-- Does the tail starting at the current `.*?` stop match
`(?:#([^#]*?))?(?::([^:]*))?$`, and with which groups? -/
def tailMatchAt (t : List Char) : Option (Option (List Char) × Option (List Char)) :=
  match t with
  | [] => some (none, none)
  | ['\n'] => some (none, none)
  | '#' :: r => (hashScan r).map (fun p => (some p.1, p.2))
  | ':' :: r => if r.all (fun c => c != ':') then some (none, some r) else none
  | _ => none

/-- Walk the lazy `.*?`: try the tail groups at each position from the
left; `.*?` cannot cross a newline. -/
def scanE (acc : List Char) : List Char →
    Option (List Char × Option (List Char) × Option (List Char))
  | [] => some (acc, none, none)
  | c :: t =>
    match tailMatchAt (c :: t) with
    | some (g2, g3) => some (acc, g2, g3)
    | none => if c == '\n' then none else scanE (acc ++ [c]) t

/-- Model of the `re.match(...).group(1, 2, 3)` destructuring at
update.py line 139: `(url, branch, addonRelativeFolderPath)`.  `none`
corresponds to the whole regex failing (so `.group` raises). -/
def parseAddonRef (s : String) : Option (String × Option String × Option String) :=
  let l := s.data
  let k := schemeLen l
  match scanE (l.take k) (l.drop k) with
  | some (g1, g2, g3) => some (⟨g1⟩, g2.map (⟨·⟩), g3.map (⟨·⟩))
  | none =>
    if k ≠ 0 then
      (scanE [] l).map (fun r => (⟨r.1⟩, r.2.1.map (⟨·⟩), r.2.2.map (⟨·⟩)))
    else none

/-- Model of lines 140-147: the clone goes into the fresh temporary
directory `tmp`; a truthy branch group is checked out; a truthy subpath
group is joined beneath the clone root — as
`os.path.join(addonPath, addonRelativeFolderPath[1:])`, i.e. with the
subpath's first character dropped.  Returns
(url, branch actually checked out, resolved add-on path). -/
def resolveRemoteRef (addonPath tmp : String) :
    Option (String × Option String × String) :=
  match parseAddonRef addonPath with
  | none => none
  | some (url, branch, sub) =>
    let checkedOut := match branch with
      | some b => if b ≠ "" then some b else none
      | none => none
    let resolved := match sub with
      | some s => if s ≠ "" then pathJoin tmp (s.drop 1) else tmp
      | none => tmp
    some (url, checkedOut, resolved)

/-! ## Claims -/

/-- Claim C1: the spec says that a run over sources where some pipelines
fail with an error and others succeed completes and writes the catalog,
omitting each failed source after a diagnostic.  The code violates this:
for a source whose pipeline recorded an exception, the fan-in loop prints
the diagnostic but then still executes `addonsXml.append(result.xml)`
with `xml = None`, which raises an uncaught `TypeError` and aborts the
whole run before the catalog is written (update.py line 298 runs
unconditionally after the `if` at 295).  Only a RESULTLESS source (empty
result list, `StopIteration`) is skipped as the spec describes, as the
second conjunct shows, with ordering preserved. -/
theorem C1_orchestrator_abort :
    mainLoop [("A", [⟨some ⟨some "a", some "1.0.0"⟩, none⟩]),
              ("B", [⟨none, some (.runtimeError "boom")⟩]),
              ("C", [⟨some ⟨some "c", some "2.0.0"⟩, none⟩])] = .error .typeError
    ∧ mainLoop [("A", [⟨some ⟨some "a", some "1.0.0"⟩, none⟩]),
                ("B", []),
                ("C", [⟨some ⟨some "c", some "2.0.0"⟩, none⟩])]
        = .ok ([⟨some "a", some "1.0.0"⟩, ⟨some "c", some "2.0.0"⟩],
               [getErrorGettingAddon "B"]) := by
  decide

/-- Claim C4: the spec says the archive branch succeeds in particular
when no file exists yet at the destination
`{repositoryRoot}/{identifier}/{basename}`.  The code violates this:
`os.stat(addonRepositoryZipPath)` (update.py line 210) is evaluated on
the not-yet-existing destination and raises `FileNotFoundError`, so a
first-time archive source always fails (first conjunct).  The other two
conjuncts record the parts that do behave as claimed once the destination
exists: differing stat records trigger the copy (the destination receives
the source's content), and an identical file (same path, hence equal stat
records) is not copied — the destination entry keeps its inode. -/
theorem C4_stat_missing_destination :
    (fetchZip ⟨[⟨"s.zip", .zipArc [⟨"a/addon.xml", ⟨some "a", some "1.2.3"⟩⟩], 0⟩], [], 1⟩
        "s.zip" "d" "t").res = .error (.fileNotFound "d/a/s.zip")
    ∧ ((fetchZip ⟨[⟨"s.zip", .zipArc [⟨"a/addon.xml", ⟨some "a", some "1.2.3"⟩⟩], 0⟩,
                   ⟨"d/a/s.zip", .plain, 1⟩], [], 2⟩
        "s.zip" "d" "t").res =
        .ok (⟨[⟨"d/a/s.zip.md5", .plain, 4⟩,
               ⟨"d/a/s.zip", .zipArc [⟨"a/addon.xml", ⟨some "a", some "1.2.3"⟩⟩], 2⟩,
               ⟨"s.zip", .zipArc [⟨"a/addon.xml", ⟨some "a", some "1.2.3"⟩⟩], 0⟩],
              ["d/a"], 5⟩,
             some ⟨some "a", some "1.2.3"⟩))
    ∧ ((fetchZip ⟨[⟨"d/a/a-1.2.3.zip", .zipArc [⟨"a/addon.xml", ⟨some "a", some "1.2.3"⟩⟩], 0⟩], [], 1⟩
          "d/a/a-1.2.3.zip" "d" "t").res =
        .ok (⟨[⟨"d/a/a-1.2.3.zip.md5", .plain, 2⟩,
               ⟨"d/a/a-1.2.3.zip", .zipArc [⟨"a/addon.xml", ⟨some "a", some "1.2.3"⟩⟩], 0⟩], [], 3⟩,
             some ⟨some "a", some "1.2.3"⟩)) := by
  refine ⟨by decide, by decide, by decide⟩

/-- Claim C6: the spec says an auxiliary file is extracted exactly when a
member path EXACTLY equals `{identifier}/{fileName}`, and otherwise is
skipped without error.  The code violates the "skipped without error"
part: the guard (update.py line 219) is a substring test over all member
paths, and when it fires without an exactly matching member,
`ZipFile.extract` raises `KeyError` and the pipeline fails (first two
conjuncts, at the extraction loop and at the whole archive branch).  The
last two conjuncts show the behaviours that do match the claim: an exact
member is extracted into the repository root, and a name with no
substring occurrence at all is skipped. -/
theorem C6_substring_extract_keyerror :
    extractInfoFiles ⟨[], [], 0⟩ [⟨"deep/b/addon.xml", ⟨some "b", some "1.2.3"⟩⟩] "b" "d"
        = .error (.keyError "b/addon.xml")
    ∧ (fetchZip ⟨[⟨"s.zip", .zipArc [⟨"deep/b/addon.xml", ⟨some "b", some "1.2.3"⟩⟩], 0⟩,
                  ⟨"d/b/s.zip", .zipArc [⟨"deep/b/addon.xml", ⟨some "b", some "1.2.3"⟩⟩], 1⟩],
                 [], 2⟩ "s.zip" "d" "t").res = .error (.keyError "b/addon.xml")
    ∧ extractInfoFiles ⟨[], [], 0⟩ [⟨"b/addon.xml", ⟨some "b", some "1.2.3"⟩⟩] "b" "d"
        = .ok ⟨[⟨"d/b/addon.xml", .xmlDoc ⟨some "b", some "1.2.3"⟩, 0⟩], [], 1⟩
    ∧ extractInfoFiles ⟨[], [], 0⟩ [⟨"b/other.bin", ⟨none, none⟩⟩] "b" "d"
        = .ok ⟨[], [], 0⟩ := by
  refine ⟨by decide, by decide, by decide, by decide⟩

/-- Claim C7: the spec says that for `Url[#Branch][:Subpath]` the
resolved add-on directory is exactly `Subpath` joined beneath the clone
root.  The code violates this: the regex captures the subpath WITHOUT its
leading `:` separator, yet line 147 joins `addonRelativeFolderPath[1:]`,
silently dropping the subpath's first character, so `plugin.demo`
resolves to `{clone}/lugin.demo` (this contradicts the script's own
docstring example, which passes `:repository.chad.parry.org` style
subpaths).  Url and Branch are parsed as the claim states (first and
last conjuncts). -/
theorem C7_subpath_first_char_dropped :
    parseAddonRef "https://h/r.git:plugin.demo"
        = some ("https://h/r.git", none, some "plugin.demo")
    ∧ resolveRemoteRef "https://h/r.git:plugin.demo" "tmp"
        = some ("https://h/r.git", none, "tmp/lugin.demo")
    ∧ "tmp/lugin.demo" ≠ pathJoin "tmp" "plugin.demo"
    ∧ resolveRemoteRef "https://h/r.git#dev:plugin.demo" "tmp"
        = some ("https://h/r.git", some "dev", "tmp/lugin.demo") := by
  refine ⟨by decide, by decide, by decide, by decide⟩

/-- Claim C8: the spec says every temporary directory created by a
pipeline is deleted on every exit path.  The code violates this in the
archive branch: `tempfile.mkdtemp()` at update.py line 200 has no
`finally`; when no member matches the descriptor pattern, `next` raises
`StopIteration` at line 203 and the `shutil.rmtree` at line 206 never
runs (first conjunct), and likewise when the extracted descriptor fails
validation at line 205 (second conjunct).  In both runs the temporary
directory is created but never removed.  (The same shape of leak exists
for the clone directory of line 141 when the clone or checkout raises.) -/
theorem C8_temp_dir_leak :
    fetchZip ⟨[⟨"s.zip", .zipArc [⟨"addon.xml", ⟨some "a", some "1.2.3"⟩⟩], 0⟩], [], 1⟩
        "s.zip" "d" "t" = ⟨.error .stopIteration, ["t"], []⟩
    ∧ fetchZip ⟨[⟨"s.zip", .zipArc [⟨"p/addon.xml", ⟨some "A", some "1.2.3"⟩⟩], 0⟩], [], 1⟩
        "s.zip" "d" "t" = ⟨.error (.runtimeError "Invalid addon ID: A"), ["t"], []⟩ := by
  refine ⟨by decide, by decide⟩

lemma head_dropWhile_false {p : Char → Bool} {l : List Char} {c : Char}
    (h : (l.dropWhile p).head? = some c) : p c = false := by
  have := List.head?_dropWhile_not p l
  rw [h] at this
  exact this

lemma takeWhile_append_all {p : Char → Bool} {a : List Char} (b : List Char)
    (ha : a.all p = true) : (a ++ b).takeWhile p = a ++ b.takeWhile p := by
  induction a with
  | nil => simp
  | cons x xs ih =>
    simp only [List.all_cons, Bool.and_eq_true] at ha
    simp [List.takeWhile_cons, ha.1, ih ha.2]

lemma takeWhile_append_stop {p : Char → Bool} {a : List Char} (b : List Char)
    (ha : a.all p = true) (hb : ∀ c, b.head? = some c → p c = false) :
    (a ++ b).takeWhile p = a ∧ (a ++ b).dropWhile p = b := by
  induction a with
  | nil =>
    cases b with
    | nil => simp
    | cons c t =>
      have := hb c rfl
      simp [List.takeWhile_cons, List.dropWhile_cons, this]
  | cons x xs ih =>
    simp only [List.all_cons, Bool.and_eq_true] at ha
    have ihr := ih ha.2
    simp [List.takeWhile_cons, List.dropWhile_cons, ha.1, ihr.1, ihr.2]

lemma versionCore_decomp {raw p : String} (h : versionCore raw = some p) :
    (∃ a b c, p.data = a ++ '.' :: b ++ '.' :: c ∧
       a ≠ [] ∧ a.all Char.isDigit = true ∧ b ≠ [] ∧ b.all Char.isDigit = true ∧
       c ≠ [] ∧ c.all Char.isDigit = true) ∧
    (∃ rest, raw.data = p.data ++ rest ∧
       ∀ ch, rest.head? = some ch → ch.isDigit = false) := by
  have hsplit1 := List.takeWhile_append_dropWhile Char.isDigit raw.data
  simp only [versionCore] at h
  split at h
  · exact absurd h (by simp)
  · rename_i h1
    split at h
    · rename_i c1 r2 heq1
      split at h
      · rename_i hc1
        split at h
        · exact absurd h (by simp)
        · rename_i h2
          split at h
          · rename_i c2 r4 heq2
            split at h
            · rename_i hc2
              split at h
              · exact absurd h (by simp)
              · rename_i h3
                have hp := Option.some.inj h
                have hsplit2 := List.takeWhile_append_dropWhile Char.isDigit r2
                have hsplit3 := List.takeWhile_append_dropWhile Char.isDigit r4
                subst hc1
                subst hc2
                have hpd : p.data = raw.data.takeWhile Char.isDigit ++
                    '.' :: r2.takeWhile Char.isDigit ++ '.' :: r4.takeWhile Char.isDigit := by
                  rw [← hp]
                have e2 : r2 = r2.takeWhile Char.isDigit ++
                    '.' :: (r4.takeWhile Char.isDigit ++ r4.dropWhile Char.isDigit) := by
                  conv_lhs => rw [← hsplit2, heq2, ← hsplit3]
                constructor
                · refine ⟨raw.data.takeWhile Char.isDigit, r2.takeWhile Char.isDigit,
                    r4.takeWhile Char.isDigit, ?_, ?_, List.all_takeWhile, ?_,
                    List.all_takeWhile, ?_, List.all_takeWhile⟩
                  · rw [hpd]
                  · simpa using h1
                  · simpa using h2
                  · simpa using h3
                · refine ⟨r4.dropWhile Char.isDigit, ?_,
                    fun ch hch => head_dropWhile_false hch⟩
                  rw [hpd]
                  conv_lhs => rw [← hsplit1, heq1, e2]
                  simp [List.append_assoc]
            · exact absurd h (by simp)
          · exact absurd h (by simp)
      · exact absurd h (by simp)
    · exact absurd h (by simp)

lemma versionCore_complete {a b c : List Char} (r : List Char)
    (ha1 : a ≠ []) (ha2 : a.all Char.isDigit = true)
    (hb1 : b ≠ []) (hb2 : b.all Char.isDigit = true)
    (hc1 : c ≠ []) (hc2 : c.all Char.isDigit = true) :
    (versionCore ⟨a ++ '.' :: (b ++ '.' :: (c ++ r))⟩).isSome = true := by
  have hdot : ∀ (t : List Char) (ch : Char), (('.' :: t).head? = some ch) → Char.isDigit ch = false := by
    intro t ch hch
    cases hch
    decide
  have s1 := takeWhile_append_stop (p := Char.isDigit)
    ('.' :: (b ++ '.' :: (c ++ r))) ha2 (hdot _)
  have s2 := takeWhile_append_stop (p := Char.isDigit)
    ('.' :: (c ++ r)) hb2 (hdot _)
  have s3 := takeWhile_append_all (p := Char.isDigit) r hc2
  simp only [versionCore]
  rw [s1.1, s1.2, if_neg (by simpa using ha1)]
  show (if (List.takeWhile Char.isDigit (b ++ '.' :: (c ++ r))).isEmpty = true then none
    else
      match List.dropWhile Char.isDigit (b ++ '.' :: (c ++ r)) with
      | c2 :: r4 =>
        if c2 = '.' then
          if (List.takeWhile Char.isDigit r4).isEmpty = true then none
          else
            some (String.mk (a ++ '.' :: List.takeWhile Char.isDigit (b ++ '.' :: (c ++ r)) ++
              '.' :: List.takeWhile Char.isDigit r4))
        else none
      | [] => none).isSome = true
  rw [s2.1, s2.2, if_neg (by simpa using hb1)]
  show (if (List.takeWhile Char.isDigit (c ++ r)).isEmpty = true then none
    else some (String.mk (a ++ '.' :: b ++ '.' :: List.takeWhile Char.isDigit (c ++ r)))).isSome = true
  rw [if_neg (by simp [s3, hc1])]
  rfl

lemma all_of_any_not {p : Char → Bool} {l : List Char}
    (h : l.any (fun c => !(p c)) = false) : l.all p = true := by
  simp only [List.any_eq_false] at h
  simp only [List.all_eq_true]
  intro c hc
  simpa using h c hc

lemma any_not_of_all {p : Char → Bool} {l : List Char} (h : l.all p = true) :
    l.any (fun c => !(p c)) = false := by
  simp only [List.all_eq_true] at h
  simp only [List.any_eq_false]
  intro c hc
  simpa using h c hc

lemma getAddonInfo_ok_iff (doc : XmlDoc) (i v : String) :
    getAddonInfo doc = .ok (i, v) ↔
      (doc.id = some i ∧ i.data.all validChar = true ∧
       ∃ raw, doc.version = some raw ∧ versionCore raw = some v) := by
  constructor
  · intro h
    simp only [getAddonInfo] at h
    split at h
    · exact absurd h (by simp)
    · rename_i i0 hi0
      split at h
      · exact absurd h (by simp)
      · rename_i hany
        split at h
        · exact absurd h (by simp)
        · rename_i v0 hv0
          split at h
          · rename_i core hcore
            obtain ⟨rfl, rfl⟩ : i0 = i ∧ core = v := by
              have := Except.ok.inj h
              exact ⟨congrArg Prod.fst this, congrArg Prod.snd this⟩
            exact ⟨hi0, all_of_any_not (by simpa using hany), v0, hv0, hcore⟩
          · exact absurd h (by simp)
  · rintro ⟨hid, hall, raw, hver, hcore⟩
    simp only [getAddonInfo, hid, hver, hcore]
    rw [if_neg]
    simp only [Bool.not_eq_true]
    exact any_not_of_all hall

/-- Claim C3 counterexample: the claim states `getAddonInfo` succeeds only
when the id attribute matches `^[a-z0-9._-]+$`, which requires at least
one character.  The code's check `re.search("[^a-z0-9._-]", addonId)`
(update.py line 86) merely looks for a forbidden character, so the EMPTY
identifier is accepted: metadata reading succeeds on `id=""` even though
`""` does not match the claimed pattern. -/
theorem C3_empty_id_accepted :
    getAddonInfo ⟨some "", some "1.2.3"⟩ = .ok ("", "1.2.3")
    ∧ specIdMatch "" = false := by
  refine ⟨by decide, by decide⟩

/-- Claim C3 (amended): metadata reading succeeds iff the id attribute is
present and contains no character outside `[a-z0-9._-]` (the empty
identifier is allowed) and the version attribute is present and begins
with `\d+\.\d+\.\d+`; on success it returns the identifier unchanged and
exactly the greedy three-component numeric prefix of the version (any
trailing qualifier, which cannot begin with a digit, is discarded).
Conjunct 1 characterises success, conjunct 2 is soundness of the captured
version prefix, conjunct 3 completeness of version acceptance. -/
theorem C3_getAddonInfo_amended :
    (∀ doc i v, getAddonInfo doc = .ok (i, v) ↔
        doc.id = some i ∧ i.data.all validChar = true ∧
        ∃ raw, doc.version = some raw ∧ versionCore raw = some v)
    ∧ (∀ raw p, versionCore raw = some p →
        ((∃ a b c, p.data = a ++ '.' :: b ++ '.' :: c ∧
           a ≠ [] ∧ a.all Char.isDigit = true ∧ b ≠ [] ∧ b.all Char.isDigit = true ∧
           c ≠ [] ∧ c.all Char.isDigit = true) ∧
         (∃ rest, raw.data = p.data ++ rest ∧
           ∀ ch, rest.head? = some ch → ch.isDigit = false)))
    ∧ (∀ (a b c r : List Char), a ≠ [] → a.all Char.isDigit = true →
        b ≠ [] → b.all Char.isDigit = true → c ≠ [] → c.all Char.isDigit = true →
        (versionCore ⟨a ++ '.' :: (b ++ '.' :: (c ++ r))⟩).isSome = true) :=
  ⟨getAddonInfo_ok_iff, fun _ _ h => versionCore_decomp h,
   fun _ _ _ r ha1 ha2 hb1 hb2 hc1 hc2 => versionCore_complete r ha1 ha2 hb1 hb2 hc1 hc2⟩

/-- Witness for `C3_getAddonInfo_amended` at concrete inputs: a valid
descriptor whose version carries a trailing qualifier, and a concrete
version accepted by the completeness part. -/
theorem C3_getAddonInfo_amended_witness :
    getAddonInfo ⟨some "plugin.example", some "1.2.3rc1"⟩ = .ok ("plugin.example", "1.2.3")
    ∧ (versionCore ⟨"7".data ++ '.' :: ("0".data ++ '.' :: ("15".data ++ "b2".data))⟩).isSome = true := by
  constructor
  · exact (C3_getAddonInfo_amended.1 ⟨some "plugin.example", some "1.2.3rc1"⟩
      "plugin.example" "1.2.3").mpr ⟨rfl, by decide, "1.2.3rc1", rfl, by decide⟩
  · exact C3_getAddonInfo_amended.2.2 "7".data "0".data "15".data "b2".data
      (by decide) (by decide) (by decide) (by decide) (by decide) (by decide)

lemma getAddonInfo_ne_stop (doc : XmlDoc) : getAddonInfo doc ≠ .error .stopIteration := by
  simp only [getAddonInfo]
  split
  · simp
  · split
    · simp
    · split
      · simp
      · split <;> simp

lemma statOf_error_shape {fs : FS} {p : String} {e : PyError}
    (h : fs.statOf p = .error e) : e = .fileNotFound p := by
  simp only [FS.statOf] at h
  split at h
  · exact absurd h (by simp)
  · simpa using h.symm

lemma extractLoop_ne_stop (names : List String) (fs : FS) (dms : List ZipMember)
    (i dd : String) : extractLoop fs dms i dd names ≠ .error .stopIteration := by
  induction names generalizing fs with
  | nil => simp [extractLoop]
  | cons n rest ih =>
    simp only [extractLoop]
    split
    · split
      · exact ih _
      · simp
    · exact ih _

lemma parseXmlFile_error_shape {f : File} {e : PyError}
    (h : parseXmlFile f = .error e) : e = .parseError := by
  cases f <;> simp_all [parseXmlFile]

/-- `copyStage` can only fail with `FileNotFoundError`. -/
lemma copyStage_error_shape {fs : FS} {ap dest folder : String} {e : PyError}
    (h : copyStage fs ap dest folder = .error e) : ∃ q, e = .fileNotFound q := by
  simp only [copyStage] at h
  split at h
  · rename_i e2 heq
    exact ⟨_, (Except.error.inj h) ▸ statOf_error_shape heq⟩
  · split at h
    · rename_i e2 heq
      exact ⟨_, (Except.error.inj h) ▸ statOf_error_shape heq⟩
    · exact absurd h (by simp)

/-- `publishStage` never fails with `StopIteration`. -/
lemma publishStage_ne_stop (fs1 : FS) (dest folder addonId addonVersion dd : String) :
    publishStage fs1 dest folder addonId addonVersion dd ≠ .error .stopIteration := by
  simp only [publishStage]
  split
  · split
    · rename_i heq
      intro h
      have he := Except.error.inj h
      subst he
      exact extractLoop_ne_stop _ _ _ _ _ heq
    · split
      · split
        · simp
        · rename_i heq
          intro h
          have he := Except.error.inj h
          subst he
          exact absurd (parseXmlFile_error_shape heq) (by simp)
      · simp
  · simp

/-- The archive branch raises `StopIteration` exactly when no member of
the source archive matches the descriptor pattern. -/
lemma fetchZip_stop_iff {fs : FS} {ap dd tmp : String} {e : FSEntry} {ms : List ZipMember}
    (hlook : fs.lookup ap = some e) (hfile : e.file = .zipArc ms) :
    ((fetchZip fs ap dd tmp).res = .error .stopIteration ↔ findDescriptorMember ms = none) := by
  obtain ⟨ep, ef, ei⟩ := e
  simp only at hfile
  subst hfile
  constructor
  · intro h
    cases hfind : findDescriptorMember ms with
    | none => rfl
    | some m =>
      exfalso
      simp only [fetchZip, hlook, hfind] at h
      split at h
      · rename_i err heq
        simp only at h
        have he := Except.error.inj h
        subst he
        exact getAddonInfo_ne_stop m.doc heq
      · rename_i iv heq
        split at h
        · rename_i err2 heq2
          simp only at h
          have he := Except.error.inj h
          subst he
          obtain ⟨q, hq⟩ := copyStage_error_shape heq2
          exact absurd hq (by simp)
        · split at h
          · rename_i err3 heq3
            simp only at h
            have he := Except.error.inj h
            subst he
            exact publishStage_ne_stop _ _ _ _ _ _ heq3
          · simp at h
  · intro hfind
    simp [fetchZip, hlook, hfind]

/-- Claim C5 counterexample: the claim says a member whose path ends with
`addon.xml` (case-insensitively) is selected, in particular a top-level
`addon.xml` member.  The compiled pattern is `.*/addon.xml$` (update.py
line 202): it requires a `/` before the file name, so an archive whose
only descriptor member is the top-level path `addon.xml` is NOT selected
— even though that path ends with the descriptor name — and the branch
fails with `StopIteration` (the spec's SourceNotFound). -/
theorem C5_toplevel_descriptor_rejected :
    descMemberMatch "addon.xml" = false
    ∧ endsWithCI "addon.xml" addonXmlName = true
    ∧ (fetchZip ⟨[⟨"s.zip", .zipArc [⟨"addon.xml", ⟨some "a", some "1.2.3"⟩⟩], 0⟩], [], 1⟩
        "s.zip" "d" "t").res = .error .stopIteration := by
  refine ⟨by decide, by decide, by decide⟩

/-- Claim C5 (amended): the archive branch selects the first member whose
path matches `.*/addon.xml$` case-insensitively — i.e. a slash must
precede the descriptor name (a top-level `addon.xml` is rejected) and the
dot position matches any single non-newline character — and it fails with
`StopIteration` (the spec's SourceNotFound) if and only if no member
matches that pattern. -/
theorem C5_descriptor_selection_amended :
    (∀ ms : List ZipMember, findDescriptorMember ms = none ↔
        ∀ m ∈ ms, descMemberMatch m.name = false)
    ∧ (∀ (ms : List ZipMember) (m : ZipMember), findDescriptorMember ms = some m →
        m ∈ ms ∧ descMemberMatch m.name = true)
    ∧ (∀ (fs : FS) (ap dd tmp : String) (e : FSEntry) (ms : List ZipMember),
        fs.lookup ap = some e → e.file = .zipArc ms →
        ((fetchZip fs ap dd tmp).res = .error .stopIteration ↔
          findDescriptorMember ms = none)) := by
  refine ⟨?_, ?_, fun fs ap dd tmp e ms h1 h2 => fetchZip_stop_iff h1 h2⟩
  · intro ms
    simp [findDescriptorMember, List.find?_eq_none]
  · intro ms m h
    simp only [findDescriptorMember] at h
    have h2 := List.find?_some h
    exact ⟨List.mem_of_find?_eq_some h, h2⟩

/-- Witness for `C5_descriptor_selection_amended`: a concrete archive
with no matching member makes the branch fail with `StopIteration`. -/
theorem C5_descriptor_selection_amended_witness :
    (fetchZip ⟨[⟨"s.zip", .zipArc [⟨"data.bin", ⟨none, none⟩⟩], 0⟩], [], 1⟩
        "s.zip" "d" "t").res = .error .stopIteration :=
  (C5_descriptor_selection_amended.2.2 _ "s.zip" "d" "t"
      ⟨"s.zip", .zipArc [⟨"data.bin", ⟨none, none⟩⟩], 0⟩ [⟨"data.bin", ⟨none, none⟩⟩]
      (by decide) rfl).mpr (by decide)

lemma lookup_remove_self (fs : FS) (p : String) : (fs.remove p).lookup p = none := by
  simp only [FS.remove, FS.lookup, List.find?_eq_none]
  intro x hx
  have := (List.mem_filter.mp hx).2
  simpa using this

lemma publishStage_ok_some {fs1 : FS} {dest folder addonId addonVersion dd : String}
    {fs' : FS} {d : XmlDoc}
    (h : publishStage fs1 dest folder addonId addonVersion dd = .ok (fs', some d)) :
    fs'.lookup (pathJoin folder addonXmlName) = none := by
  simp only [publishStage] at h
  split at h
  · split at h
    · exact absurd h (by simp)
    · split at h
      · split at h
        · rename_i d2 heq
          obtain ⟨hfs, hd⟩ := Prod.mk.injEq .. ▸ Except.ok.inj h
          rw [← hfs]
          exact lookup_remove_self _ _
        · exact absurd h (by simp)
      · simp at h
  · exact absurd h (by simp)

/-- Claim C2 (amended): every successful archive-branch run located a
descriptor member in the source archive and validated THAT document, so
the identifier under which the entry is filed always has a valid
character set; but the catalog document itself is re-parsed from the
extracted `{identifier}/addon.xml` file (which is then removed from the
identifier directory) and may be a different document, so a catalog entry
itself can carry an identifier or version that would fail validation. -/
theorem C2_catalog_entry_amended :
    ∀ (fs : FS) (ap dd tmp : String) (e : FSEntry) (ms : List ZipMember) (fs' : FS) (d : XmlDoc),
      fs.lookup ap = some e → e.file = .zipArc ms →
      (fetchZip fs ap dd tmp).res = .ok (fs', some d) →
      ∃ m i v, findDescriptorMember ms = some m ∧ getAddonInfo m.doc = .ok (i, v) ∧
        i.data.all validChar = true ∧
        fs'.lookup (pathJoin (pathJoin dd i) addonXmlName) = none := by
  intro fs ap dd tmp e ms fs' d hlook hfile h
  obtain ⟨ep, ef, ei⟩ := e
  simp only at hfile
  subst hfile
  cases hfind : findDescriptorMember ms with
  | none => simp [fetchZip, hlook, hfind] at h
  | some m =>
    simp only [fetchZip, hlook, hfind] at h
    split at h
    · simp at h
    · rename_i aid ver heq
      split at h
      · simp at h
      · rename_i fs1 heqc
        split at h
        · simp at h
        · rename_i f2 r2 heqp
          simp only at h
          obtain ⟨hfs, hd⟩ := Prod.mk.injEq .. ▸ Except.ok.inj h
          refine ⟨m, aid, ver, rfl, heq, ((getAddonInfo_ok_iff m.doc aid ver).mp heq).2.1, ?_⟩
          subst hfs
          subst hd
          exact publishStage_ok_some heqp

/-- Claim C2 counterexample: the claim says the identifier-and-version
validation was performed on the same descriptor document that enters the
catalog.  In the code the validated document is the first member matching
`.*/addon.xml$` in the SOURCE archive (update.py lines 203-205), while
the catalog entry is re-parsed from the file `{datadir}/{id}/addon.xml`
extracted from the destination archive (lines 220, 231-233) — a possibly
different member.  Here the archive holds `x/addon.xml` (valid, id `b`)
and `b/addon.xml` (invalid id `B!`): validation passes on the former, but
the catalog receives the latter, whose identifier fails validation, and
the orchestrator appends it to the catalog. -/
theorem C2_unvalidated_entry_cataloged :
    (fetchZip ⟨[⟨"s.zip", .zipArc [⟨"x/addon.xml", ⟨some "b", some "1.2.3"⟩⟩,
                                   ⟨"b/addon.xml", ⟨some "B!", some "bad"⟩⟩], 0⟩,
                ⟨"d/b/s.zip", .zipArc [], 1⟩], [], 2⟩ "s.zip" "d" "t").res
      = .ok (⟨[⟨"d/b/s.zip.md5", .plain, 4⟩,
               ⟨"d/b/s.zip", .zipArc [⟨"x/addon.xml", ⟨some "b", some "1.2.3"⟩⟩,
                                      ⟨"b/addon.xml", ⟨some "B!", some "bad"⟩⟩], 2⟩,
               ⟨"s.zip", .zipArc [⟨"x/addon.xml", ⟨some "b", some "1.2.3"⟩⟩,
                                  ⟨"b/addon.xml", ⟨some "B!", some "bad"⟩⟩], 0⟩],
              ["d/b"], 5⟩,
             some ⟨some "B!", some "bad"⟩)
    ∧ getAddonInfo ⟨some "B!", some "bad"⟩ = .error (.runtimeError "Invalid addon ID: B!")
    ∧ specIdMatch "B!" = false
    ∧ mainLoop [("S", [⟨some ⟨some "B!", some "bad"⟩, none⟩])]
        = .ok ([⟨some "B!", some "bad"⟩], []) := by
  refine ⟨by decide, by decide, by decide, by decide⟩

/-- Witness for `C2_catalog_entry_amended`: a concrete successful run of
the archive branch on an already-published archive. -/
theorem C2_catalog_entry_amended_witness :
    ∃ m i v, findDescriptorMember [⟨"a/addon.xml", ⟨some "a", some "1.2.3"⟩⟩] = some m ∧
      getAddonInfo m.doc = .ok (i, v) ∧ i.data.all validChar = true ∧
      FS.lookup ⟨[⟨"d/a/a-1.2.3.zip.md5", .plain, 2⟩,
          ⟨"d/a/a-1.2.3.zip", .zipArc [⟨"a/addon.xml", ⟨some "a", some "1.2.3"⟩⟩], 0⟩], [], 3⟩
        (pathJoin (pathJoin "d" i) addonXmlName) = none :=
  C2_catalog_entry_amended
    ⟨[⟨"d/a/a-1.2.3.zip", .zipArc [⟨"a/addon.xml", ⟨some "a", some "1.2.3"⟩⟩], 0⟩], [], 1⟩
    "d/a/a-1.2.3.zip" "d" "t"
    ⟨"d/a/a-1.2.3.zip", .zipArc [⟨"a/addon.xml", ⟨some "a", some "1.2.3"⟩⟩], 0⟩
    [⟨"a/addon.xml", ⟨some "a", some "1.2.3"⟩⟩]
    ⟨[⟨"d/a/a-1.2.3.zip.md5", .plain, 2⟩,
      ⟨"d/a/a-1.2.3.zip", .zipArc [⟨"a/addon.xml", ⟨some "a", some "1.2.3"⟩⟩], 0⟩], [], 3⟩
    ⟨some "a", some "1.2.3"⟩
    (by decide) rfl (by decide)

lemma data_len_append (a b : String) : (a ++ b).data.length = a.data.length + b.data.length := by
  show (a.data ++ b.data).length = _
  exact List.length_append ..

lemma cl_ne_clv (folder ver : String) :
    pathJoin folder changelogFileName ≠ getNameVersionFileName folder changelogBase ver textFileType := by
  intro h
  have h2 := congrArg (fun s => s.data.length) h
  simp only [pathJoin, getNameVersionFileName, changelogFileName, changelogBase,
    textFileType, data_len_append] at h2
  simp only [show ("/" : String).data.length = 1 from rfl,
    show ("changelog" : String).data.length = 9 from rfl,
    show ("." : String).data.length = 1 from rfl,
    show ("txt" : String).data.length = 3 from rfl,
    show ("-" : String).data.length = 1 from rfl] at h2
  omega

lemma lookup_filter_keep {l : List FSEntry} {f : FSEntry → Bool} {q : String}
    (hf : ∀ x : FSEntry, x.path = q → f x = true) :
    (l.filter f).find? (fun e => e.path == q) = l.find? (fun e => e.path == q) := by
  induction l with
  | nil => simp
  | cons x t ih =>
    by_cases hx : x.path = q
    · rw [List.filter_cons_of_pos (hf x hx)]
      rw [List.find?_cons_of_pos _ (by simpa using hx), List.find?_cons_of_pos _ (by simpa using hx)]
    · cases hfx : f x with
      | true =>
        rw [List.filter_cons_of_pos hfx]
        rw [List.find?_cons_of_neg _ (by simpa using hx), List.find?_cons_of_neg _ (by simpa using hx)]
        exact ih
      | false =>
        rw [List.filter_cons_of_neg (by simp [hfx])]
        rw [List.find?_cons_of_neg _ (by simpa using hx)]
        exact ih

lemma lookup_remove_ne (fs : FS) {p q : String} (h : q ≠ p) :
    (fs.remove p).lookup q = fs.lookup q := by
  simp only [FS.remove, FS.lookup]
  exact lookup_filter_keep (fun x hx => by simp [hx, h])

lemma lookup_rename_self {fs : FS} {p q : String} {e : FSEntry}
    (hp : fs.lookup p = some e) : (fs.rename p q).lookup q = some ⟨q, e.file, e.ino⟩ := by
  have hp2 : fs.files.find? (fun x => x.path == p) = some e := hp
  simp only [FS.rename, FS.lookup, hp2]
  rw [List.find?_cons_of_pos _ (by simp)]

lemma isFile_rename_old {fs : FS} {p q : String} {e : FSEntry}
    (hp : fs.lookup p = some e) (hne : p ≠ q) : (fs.rename p q).isFile p = false := by
  have hp2 : fs.files.find? (fun x => x.path == p) = some e := hp
  simp only [FS.rename, FS.isFile, FS.lookup, hp2]
  rw [List.find?_cons_of_neg _ (by simpa using fun hh => hne hh.symm)]
  rw [List.find?_eq_none.mpr]
  · rfl
  · intro x hx
    have := (List.mem_filter.mp hx).2
    simp only [Bool.and_eq_true, bne_iff_ne, ne_eq] at this
    simpa using this.1

lemma isFile_remove_self (fs : FS) (p : String) : (fs.remove p).isFile p = false := by
  simp [FS.isFile, lookup_remove_self]

/-- Claim C10: after the changelog-versioning block (update.py lines
221-228), for a folder whose unversioned `changelog.txt` exists: when no
`changelog-{version}.txt` existed, the unversioned file has been renamed
to the versioned name (same content and inode) and no `changelog.txt`
remains; when the versioned file already existed, `changelog.txt` is
deleted and the pre-existing versioned file is untouched. -/
theorem C10_changelog_versioning :
    ∀ (fs : FS) (folder ver : String),
      fs.isFile (pathJoin folder changelogFileName) = true →
      ((fs.isFile (getNameVersionFileName folder changelogBase ver textFileType) = false →
        (∃ e, fs.lookup (pathJoin folder changelogFileName) = some e ∧
          (changelogStep fs folder ver).lookup
              (getNameVersionFileName folder changelogBase ver textFileType)
            = some ⟨getNameVersionFileName folder changelogBase ver textFileType, e.file, e.ino⟩) ∧
        (changelogStep fs folder ver).isFile (pathJoin folder changelogFileName) = false)
      ∧ (fs.isFile (getNameVersionFileName folder changelogBase ver textFileType) = true →
        (changelogStep fs folder ver).isFile (pathJoin folder changelogFileName) = false ∧
        (changelogStep fs folder ver).lookup
            (getNameVersionFileName folder changelogBase ver textFileType)
          = fs.lookup (getNameVersionFileName folder changelogBase ver textFileType))) := by
  intro fs folder ver hcl
  have hne := cl_ne_clv folder ver
  constructor
  · intro hclv
    simp only [changelogStep, hcl, if_true, hclv, if_false, Bool.false_eq_true]
    obtain ⟨e, he⟩ := Option.isSome_iff_exists.mp (by simpa [FS.isFile] using hcl)
    refine ⟨⟨e, he, lookup_rename_self he⟩, isFile_rename_old he hne⟩
  · intro hclv
    simp only [changelogStep, hcl, if_true, hclv]
    exact ⟨isFile_remove_self fs _, lookup_remove_ne fs (fun hh => hne hh.symm)⟩

/-- Witness for `C10_changelog_versioning`: a concrete folder holding
only an unversioned changelog. -/
theorem C10_changelog_versioning_witness :
    (∃ e, FS.lookup ⟨[⟨pathJoin "f" changelogFileName, .plain, 7⟩], [], 9⟩
        (pathJoin "f" changelogFileName) = some e ∧
      (changelogStep ⟨[⟨pathJoin "f" changelogFileName, .plain, 7⟩], [], 9⟩ "f" "1.0.0").lookup
          (getNameVersionFileName "f" changelogBase "1.0.0" textFileType)
        = some ⟨getNameVersionFileName "f" changelogBase "1.0.0" textFileType, e.file, e.ino⟩) ∧
    (changelogStep ⟨[⟨pathJoin "f" changelogFileName, .plain, 7⟩], [], 9⟩ "f" "1.0.0").isFile
        (pathJoin "f" changelogFileName) = false :=
  (C10_changelog_versioning ⟨[⟨pathJoin "f" changelogFileName, .plain, 7⟩], [], 9⟩
    "f" "1.0.0" (by decide)).1 (by decide)

lemma lookup_write_self (fs : FS) (p : String) (f : File) :
    (fs.write p f).lookup p = some ⟨p, f, fs.nextIno⟩ := by
  simp only [FS.write, FS.lookup]
  rw [List.find?_cons_of_pos _ (by simp)]

lemma lookup_write_ne (fs : FS) {p q : String} (f : File) (h : q ≠ p) :
    (fs.write p f).lookup q = fs.lookup q := by
  simp only [FS.write, FS.lookup]
  rw [List.find?_cons_of_neg _ (by simpa using h.symm)]
  refine lookup_filter_keep (fun x hx => ?_)
  simp only [hx, bne_iff_ne, ne_eq]
  exact h

lemma lookup_createFolder (fs : FS) (d q : String) :
    (fs.createFolder d).lookup q = fs.lookup q := by
  simp only [FS.createFolder]
  split <;> rfl

lemma isFile_createFolder (fs : FS) (d q : String) :
    (fs.createFolder d).isFile q = fs.isFile q := by
  simp [FS.isFile, lookup_createFolder]

lemma lookup_copyfile_ne (fs : FS) {src dst q : String} (h : q ≠ dst) :
    (fs.copyfile src dst).lookup q = fs.lookup q := by
  simp only [FS.copyfile]
  split
  · exact lookup_write_ne _ _ h
  · rfl

lemma lookup_rename_ne (fs : FS) {p p2 q : String} (h1 : q ≠ p) (h2 : q ≠ p2) :
    (fs.rename p p2).lookup q = fs.lookup q := by
  simp only [FS.rename]
  split
  · rename_i e heq
    show List.find? _ (_ :: _) = _
    rw [List.find?_cons_of_neg _ (by simpa using h2.symm)]
    refine lookup_filter_keep (fun x hx => ?_)
    simp only [hx, Bool.and_eq_true, bne_iff_ne, ne_eq]
    exact ⟨h1, h2⟩
  · rfl

lemma changelogStep_preserves (fs : FS) (folder ver : String) {q : String}
    (h1 : q ≠ pathJoin folder changelogFileName)
    (h2 : q ≠ getNameVersionFileName folder changelogBase ver textFileType) :
    (changelogStep fs folder ver).lookup q = fs.lookup q := by
  simp only [changelogStep]
  split
  · split
    · exact lookup_remove_ne fs h1
    · exact lookup_rename_ne fs h1 h2
  · rfl

lemma extractLoop_preserves {names : List String} {fs fs2 : FS} {dms : List ZipMember}
    {i dd q : String}
    (hq : ∀ n ∈ names, q ≠ pathJoin dd (i ++ "/" ++ n))
    (h : extractLoop fs dms i dd names = .ok fs2) :
    fs2.lookup q = fs.lookup q := by
  induction names generalizing fs with
  | nil =>
    simp only [extractLoop] at h
    cases h
    rfl
  | cons n rest ih =>
    simp only [extractLoop] at h
    split at h
    · split at h
      · rw [ih (fun x hx => hq x (List.mem_cons_of_mem n hx)) h]
        exact lookup_write_ne _ _ (hq n (List.mem_cons_self n rest))
      · exact absurd h (by simp)
    · exact ih (fun x hx => hq x (List.mem_cons_of_mem n hx)) h

lemma strEnd {a b : String} {x : Char} (hb : b.data.getLast? = some x) :
    (a ++ b).data.getLast? = some x := by
  show (a.data ++ b.data).getLast? = some x
  rw [List.getLast?_append, hb]
  rfl

lemma ne_of_getLast {s t : String} {x y : Char}
    (hs : s.data.getLast? = some x) (ht : t.data.getLast? = some y) (hxy : x ≠ y) :
    s ≠ t := by
  intro h
  rw [h, ht] at hs
  exact hxy (Option.some.inj hs).symm

lemma pathJoin_getLast {a b : String} {x : Char} (hb : b.data.getLast? = some x) :
    (pathJoin a b).data.getLast? = some x :=
  strEnd hb

lemma zipName_getLast (path name version : String) :
    (getNameVersionFileName path name version zipFileType).data.getLast? = some 'p' :=
  pathJoin_getLast (strEnd (show (zipFileType).data.getLast? = some 'p' from rfl))

lemma copyStage_preserves_src {fs fs1 : FS} {ap dest folder : String}
    (h : copyStage fs ap dest folder = .ok fs1) : fs1.lookup ap = fs.lookup ap := by
  simp only [copyStage] at h
  split at h
  · exact absurd h (by simp)
  · rename_i s heqs
    split at h
    · exact absurd h (by simp)
    · rename_i d heqd
      have hfs1 := Except.ok.inj h
      by_cases hsd : s ≠ d
      · rw [if_pos hsd] at hfs1
        have hne : ap ≠ dest := by
          intro hh
          rw [← hh] at heqd
          rw [heqs] at heqd
          exact hsd (Except.ok.inj heqd)
        rw [← hfs1, lookup_copyfile_ne _ hne, lookup_createFolder]
      · rw [if_neg hsd] at hfs1
        rw [← hfs1]

lemma publishStage_preserves {fs1 fs' : FS} {dest folder addonId addonVersion dd : String}
    {r : Option XmlDoc} {q : String} (hq : q.data.getLast? = some 'p')
    (h : publishStage fs1 dest folder addonId addonVersion dd = .ok (fs', r)) :
    fs'.lookup q = fs1.lookup q := by
  have hext : ∀ n ∈ addonInfoFileNames, q ≠ pathJoin dd (addonId ++ "/" ++ n) := by
    intro n hn
    simp only [addonInfoFileNames, addonXmlName, changelogFileName, changelogBase,
      textFileType, List.mem_cons, List.mem_singleton, List.not_mem_nil, or_false] at hn
    rcases hn with rfl | rfl | rfl | rfl
    · exact ne_of_getLast hq (pathJoin_getLast (strEnd rfl)) (by decide)
    · exact ne_of_getLast hq (pathJoin_getLast (strEnd rfl)) (by decide)
    · exact ne_of_getLast hq (pathJoin_getLast (strEnd rfl)) (by decide)
    · exact ne_of_getLast hq (pathJoin_getLast (strEnd rfl)) (by decide)
  have hcl : q ≠ pathJoin folder changelogFileName :=
    ne_of_getLast hq (pathJoin_getLast (strEnd rfl)) (by decide)
  have hclv : q ≠ getNameVersionFileName folder changelogBase addonVersion textFileType :=
    ne_of_getLast hq (pathJoin_getLast (strEnd rfl)) (by decide)
  have hmd5 : q ≠ dest ++ "." ++ "md5" :=
    ne_of_getLast hq (strEnd rfl) (by decide)
  have haxp : q ≠ pathJoin folder addonXmlName :=
    ne_of_getLast hq (pathJoin_getLast rfl) (by decide)
  simp only [publishStage] at h
  split at h
  · split at h
    · exact absurd h (by simp)
    · rename_i fs2 heqx
      split at h
      · split at h
        · rename_i d2 heqp
          have := Except.ok.inj h
          have hfs : fs' = ((changelogStep fs2 folder addonVersion).write
              (dest ++ "." ++ "md5") .plain).remove (pathJoin folder addonXmlName) :=
            (congrArg Prod.fst this).symm
          rw [hfs, lookup_remove_ne _ haxp, lookup_write_ne _ _ hmd5,
            changelogStep_preserves _ _ _ hcl hclv,
            extractLoop_preserves hext heqx]
        · exact absurd h (by simp)
      · have := Except.ok.inj h
        have hfs : fs' = (changelogStep fs2 folder addonVersion).write
            (dest ++ "." ++ "md5") .plain :=
          (congrArg Prod.fst this).symm
        rw [hfs, lookup_write_ne _ _ hmd5,
          changelogStep_preserves _ _ _ hcl hclv,
          extractLoop_preserves hext heqx]
  · exact absurd h (by simp)

/-- Running the archive branch on a `.zip`-named source never changes the
filesystem entry at the source path itself: the copy is skipped when
source and destination are the same file, and every other write or
removal targets a path with a different final character. -/
lemma fetchZip_preserves_self {fs fs' : FS} {z dd tmp : String} {r : Option XmlDoc}
    (hz : z.data.getLast? = some 'p')
    (h : (fetchZip fs z dd tmp).res = .ok (fs', r)) :
    fs'.lookup z = fs.lookup z := by
  simp only [fetchZip] at h
  split at h
  · rename_i e ms ei heql
    split at h
    · simp at h
    · rename_i m hfind
      split at h
      · simp at h
      · rename_i aid ver heq
        split at h
        · simp at h
        · rename_i fs1 heqc
          split at h
          · simp at h
          · rename_i f2 r2 heqp
            simp only at h
            obtain ⟨hfs, hr⟩ := Prod.mk.injEq .. ▸ Except.ok.inj h
            subst hfs
            rw [publishStage_preserves hz heqp, copyStage_preserves_src heqc]
  · simp only at h
    obtain ⟨hfs, hr⟩ := Prod.mk.injEq .. ▸ Except.ok.inj h
    subst hfs
    rfl

/-- Inversion of a successful directory branch: the listing's top-level
`addon.xml` was found and validated, the returned archive path is
`{datadir}/{id}/{id}-{version}.zip`, and the archive was built exactly
when it was not already present (update.py line 179); when it was
present, the filesystem's files are untouched (only the identifier
directory is ensured). -/
lemma fetchDir_ok_inv {fs fs1d : FS} {ap dd z : String} {b : Bool}
    {src : List (String × XmlDoc)}
    (h : fetchDir fs ap dd src = .ok (fs1d, z, b)) :
    ∃ pr i v, src.find? (fun p => p.1 == addonXmlName) = some pr ∧
      getAddonInfo pr.2 = .ok (i, v) ∧
      z = getNameVersionFileName (pathJoin dd i) i v zipFileType ∧
      (fs.isFile z = true → b = false ∧ fs1d = fs.createFolder (pathJoin dd i)) ∧
      (fs.isFile z = false → b = true ∧
        ∃ mems, fs1d = (fs.createFolder (pathJoin dd i)).write z (.zipArc mems)) := by
  simp only [fetchDir] at h
  split at h
  · exact absurd h (by simp)
  · rename_i pr doc hfindx
    split at h
    · exact absurd h (by simp)
    · rename_i i v heq
      split at h
      · rename_i hisf
        have hh := Except.ok.inj h
        have h1 := congrArg Prod.fst hh
        have h2 := congrArg (fun t : FS × String × Bool => t.2.1) hh
        have h3 := congrArg (fun t : FS × String × Bool => t.2.2) hh
        simp only at h1 h2 h3
        subst h2
        subst h3
        rw [isFile_createFolder] at hisf
        refine ⟨(pr, doc), i, v, hfindx, heq, rfl, fun _ => ⟨rfl, h1.symm⟩, fun hff => ?_⟩
        rw [hisf] at hff
        cases hff
      · rename_i hisf
        have hh := Except.ok.inj h
        have h1 := congrArg Prod.fst hh
        have h2 := congrArg (fun t : FS × String × Bool => t.2.1) hh
        have h3 := congrArg (fun t : FS × String × Bool => t.2.2) hh
        simp only at h1 h2 h3
        subst h2
        subst h3
        rw [isFile_createFolder] at hisf
        simp only [Bool.not_eq_true] at hisf
        refine ⟨(pr, doc), i, v, hfindx, heq, rfl, fun htt => ?_, fun _ => ⟨rfl, _, h1.symm⟩⟩
        rw [hisf] at htt
        cases htt

/-- Claim C9: packaging is idempotent with respect to an existing
archive.  For a directory source run through the whole pipeline
(directory branch, update.py lines 149-197, then the archive branch,
lines 199-236): a second run over the unchanged source directory does not
rebuild the archive (`built = false`: the guard at line 179
short-circuits), resolves the same `{id}-{version}.zip` path, and leaves
the archive's filesystem entry (content and inode) exactly as the first
run left it; moreover whenever the archive already existed before a run,
that run does not rebuild it. -/
theorem C9_package_idempotent :
    ∀ (fs : FS) (ap dd tmp tmp2 : String) (src : List (String × XmlDoc))
      (o1 o2 : FetchOut) (b1 b2 : Bool) (z1 z2 : String)
      (fs1 fs2 : FS) (r1 r2 : Option XmlDoc),
      fetchPipelineDir fs ap dd tmp src = (o1, b1, z1) →
      o1.res = .ok (fs1, r1) →
      fetchPipelineDir fs1 ap dd tmp2 src = (o2, b2, z2) →
      o2.res = .ok (fs2, r2) →
      b2 = false ∧ z2 = z1 ∧ fs2.lookup z1 = fs1.lookup z1 ∧
      (fs.isFile z1 = true → b1 = false) := by
  intro fs ap dd tmp tmp2 src o1 o2 b1 b2 z1 z2 fs1 fs2 r1 r2 h1 ho1 h2 ho2
  simp only [fetchPipelineDir] at h1 h2
  cases hd1 : fetchDir fs ap dd src with
  | error e =>
    rw [hd1] at h1
    have hres := congrArg (fun t : FetchOut × Bool × String => t.1.res) h1
    simp only at hres
    rw [← hres] at ho1
    cases ho1
  | ok t1 =>
    obtain ⟨fs1d, za, ba⟩ := t1
    rw [hd1] at h1
    have e1o := congrArg (fun t : FetchOut × Bool × String => t.1) h1
    have e1b := congrArg (fun t : FetchOut × Bool × String => t.2.1) h1
    have e1z := congrArg (fun t : FetchOut × Bool × String => t.2.2) h1
    simp only at e1o e1b e1z
    subst e1o
    subst e1b
    subst e1z
    cases hd2 : fetchDir fs1 ap dd src with
    | error e =>
      rw [hd2] at h2
      have hres := congrArg (fun t : FetchOut × Bool × String => t.1.res) h2
      simp only at hres
      rw [← hres] at ho2
      cases ho2
    | ok t2 =>
      obtain ⟨fs2d, zb, bb⟩ := t2
      rw [hd2] at h2
      have e2o := congrArg (fun t : FetchOut × Bool × String => t.1) h2
      have e2b := congrArg (fun t : FetchOut × Bool × String => t.2.1) h2
      have e2z := congrArg (fun t : FetchOut × Bool × String => t.2.2) h2
      simp only at e2o e2b e2z
      subst e2o
      subst e2b
      subst e2z
      obtain ⟨pr1, i1, v1, hf1, hg1, hz1eq, hbr1t, hbr1f⟩ := fetchDir_ok_inv hd1
      obtain ⟨pr2, i2, v2, hf2, hg2, hz2eq, hbr2t, hbr2f⟩ := fetchDir_ok_inv hd2
      rw [hf1] at hf2
      have hpr := Option.some.inj hf2
      subst hpr
      rw [hg1] at hg2
      have hiv := Except.ok.inj hg2
      have hi := congrArg Prod.fst hiv
      have hv := congrArg Prod.snd hiv
      simp only at hi hv
      subst hi
      subst hv
      have hzz : zb = za := by rw [hz2eq, hz1eq]
      subst hzz
      have hzl : zb.data.getLast? = some 'p' := by
        rw [hz1eq]
        exact zipName_getLast ..
      have hp1 : fs1.lookup zb = fs1d.lookup zb :=
        fetchZip_preserves_self hzl ho1
      have hfile1made : (fs1d.lookup zb).isSome = true := by
        by_cases hpre : fs.isFile zb = true
        · obtain ⟨hb, hfsd⟩ := hbr1t hpre
          rw [hfsd, lookup_createFolder]
          simpa [FS.isFile] using hpre
        · obtain ⟨hb, mems, hfsd⟩ := hbr1f (by simpa using hpre)
          rw [hfsd, lookup_write_self]
          rfl
      have hfile1 : fs1.isFile zb = true := by
        simp only [FS.isFile, hp1]
        exact hfile1made
      obtain ⟨hb2, hfs2d⟩ := hbr2t hfile1
      have hp2 : fs2.lookup zb = fs2d.lookup zb :=
        fetchZip_preserves_self hzl ho2
      refine ⟨hb2, rfl, ?_, fun hpre => (hbr1t hpre).1⟩
      rw [hp2, hfs2d, lookup_createFolder]

/-- Witness for `C9_package_idempotent`: two concrete consecutive runs
over the same one-file source directory. -/
theorem C9_package_idempotent_witness :
    false = false ∧ ("d/a/a-1.2.3.zip" : String) = "d/a/a-1.2.3.zip" ∧
    FS.lookup ⟨[⟨"d/a/a-1.2.3.zip.md5", .plain, 4⟩,
        ⟨"d/a/a-1.2.3.zip", .zipArc [⟨"a/addon.xml", ⟨some "a", some "1.2.3"⟩⟩], 0⟩],
        ["d/a"], 5⟩ "d/a/a-1.2.3.zip"
      = FS.lookup ⟨[⟨"d/a/a-1.2.3.zip.md5", .plain, 2⟩,
          ⟨"d/a/a-1.2.3.zip", .zipArc [⟨"a/addon.xml", ⟨some "a", some "1.2.3"⟩⟩], 0⟩],
          ["d/a"], 3⟩ "d/a/a-1.2.3.zip" ∧
    (FS.isFile ⟨[], [], 0⟩ "d/a/a-1.2.3.zip" = true → true = false) :=
  C9_package_idempotent ⟨[], [], 0⟩ "src" "d" "t1" "t2"
    [("addon.xml", ⟨some "a", some "1.2.3"⟩)]
    ⟨.ok (⟨[⟨"d/a/a-1.2.3.zip.md5", .plain, 2⟩,
        ⟨"d/a/a-1.2.3.zip", .zipArc [⟨"a/addon.xml", ⟨some "a", some "1.2.3"⟩⟩], 0⟩],
        ["d/a"], 3⟩, some ⟨some "a", some "1.2.3"⟩), ["t1"], ["t1"]⟩
    ⟨.ok (⟨[⟨"d/a/a-1.2.3.zip.md5", .plain, 4⟩,
        ⟨"d/a/a-1.2.3.zip", .zipArc [⟨"a/addon.xml", ⟨some "a", some "1.2.3"⟩⟩], 0⟩],
        ["d/a"], 5⟩, some ⟨some "a", some "1.2.3"⟩), ["t2"], ["t2"]⟩
    true false "d/a/a-1.2.3.zip" "d/a/a-1.2.3.zip"
    (⟨[⟨"d/a/a-1.2.3.zip.md5", .plain, 2⟩,
        ⟨"d/a/a-1.2.3.zip", .zipArc [⟨"a/addon.xml", ⟨some "a", some "1.2.3"⟩⟩], 0⟩],
        ["d/a"], 3⟩)
    (⟨[⟨"d/a/a-1.2.3.zip.md5", .plain, 4⟩,
        ⟨"d/a/a-1.2.3.zip", .zipArc [⟨"a/addon.xml", ⟨some "a", some "1.2.3"⟩⟩], 0⟩],
        ["d/a"], 5⟩)
    (some ⟨some "a", some "1.2.3"⟩) (some ⟨some "a", some "1.2.3"⟩)
    (by decide) rfl (by decide) rfl
